import Mathlib

/-!
Verification development for the avatar-generation endpoint
(`src/api/index.ts`).  The code is shallowly embedded: numbers are `ℕ`,
`ℤ` or `ℚ` with explicit reductions modulo `2 ^ 32` where JavaScript's
32-bit bitwise semantics matter, the canvas is modelled as the list of
drawing operations performed on it, `Math.random()` is modelled as an
ambient stream `s : ℕ → ℚ` of draws consumed left to right, and the
watermark fetch is modelled as an `Option` parameter (`none` = the fetch
or decode failed).  The PNG buffer returned by `canvas.toBuffer` is a
function of the canvas content, so byte-identical output is modelled as
equality of the final operation list.
-/

namespace AavegotchiGen

/-! ## Bytes and UTF-8 encoding of the input string -/

/-- UTF-8 encoding of a single character (code point), as bytes. -/
def utf8Char (c : Char) : List ℕ :=
  let n := c.toNat
  if n < 0x80 then [n]
  else if n < 0x800 then
    [0xC0 ||| (n >>> 6), 0x80 ||| (n &&& 0x3F)]
  else if n < 0x10000 then
    [0xE0 ||| (n >>> 12), 0x80 ||| ((n >>> 6) &&& 0x3F), 0x80 ||| (n &&& 0x3F)]
  else
    [0xF0 ||| (n >>> 18), 0x80 ||| ((n >>> 12) &&& 0x3F),
     0x80 ||| ((n >>> 6) &&& 0x3F), 0x80 ||| (n &&& 0x3F)]

/-- UTF-8 bytes of a string (what `createHash("sha256").update(input)`
hashes). -/
def utf8Bytes (s : String) : List ℕ :=
  (s.data.map utf8Char).flatten

/-! ## SHA-256 (`crypto.createHash("sha256")`)

Word-level arithmetic is on `ℕ` reduced modulo `2 ^ 32`. -/

/-- Reduce to a 32-bit word. -/
def w32 (x : ℕ) : ℕ := x % 4294967296

/-- Right rotation of a 32-bit word by `n` bits. -/
def rotr (n x : ℕ) : ℕ := w32 ((x >>> n) ||| (x <<< (32 - n)))

/-- Logical right shift. -/
def shr (n x : ℕ) : ℕ := x >>> n

/-- Bitwise complement within 32 bits. -/
def not32 (x : ℕ) : ℕ := x ^^^ 0xFFFFFFFF

def ch (x y z : ℕ) : ℕ := (x &&& y) ^^^ (not32 x &&& z)

def maj (x y z : ℕ) : ℕ := (x &&& y) ^^^ (x &&& z) ^^^ (y &&& z)

def bsig0 (x : ℕ) : ℕ := rotr 2 x ^^^ rotr 13 x ^^^ rotr 22 x

def bsig1 (x : ℕ) : ℕ := rotr 6 x ^^^ rotr 11 x ^^^ rotr 25 x

def ssig0 (x : ℕ) : ℕ := rotr 7 x ^^^ rotr 18 x ^^^ shr 3 x

def ssig1 (x : ℕ) : ℕ := rotr 17 x ^^^ rotr 19 x ^^^ shr 10 x

/-- The 64 SHA-256 round constants of FIPS 180-2 (decimal). -/
def K : List ℕ :=
  [1116352408, 1899447441, 3049323471, 3921009573, 961987163,
   1508970993, 2453635748, 2870763221, 3624381080, 310598401,
   607225278, 1426881987, 1925078388, 2162078206, 2614888103,
   3248222580, 3835390401, 4022224774, 264347078, 604807628,
   770255983, 1249150122, 1555081692, 1996064986, 2554220882,
   2821834349, 2952996808, 3210313671, 3336571891, 3584528711,
   113926993, 338241895, 666307205, 773529912, 1294757372,
   1396182291, 1695183700, 1986661051, 2177026350, 2456956037,
   2730485921, 2820302411, 3259730800, 3345764771, 3516065817,
   3600352804, 4094571909, 275423344, 430227734, 506948616,
   659060556, 883997877, 958139571, 1322822218, 1537002063,
   1747873779, 1955562222, 2024104815, 2227730452, 2361852424,
   2428436474, 2756734187, 3204031479, 3329325298]

/-- The initial SHA-256 hash state (FIPS 180-2, decimal). -/
def H0 : List ℕ :=
  [1779033703, 3144134277, 1013904242, 2773480762,
   1359893119, 2600822924, 528734635, 1541459225]

/-- SHA-256 padding: append `0x80`, zero bytes up to 56 mod 64, then the
bit length as 8 big-endian bytes. -/
def padMessage (msg : List ℕ) : List ℕ :=
  let L := msg.length
  let zeros := (119 - L % 64) % 64
  let lenBytes := (List.range 8).map (fun i => ((L * 8) >>> (8 * (7 - i))) % 256)
  msg ++ [0x80] ++ List.replicate zeros 0 ++ lenBytes

/-- Group bytes into big-endian 32-bit words. -/
def bytesToWords : List ℕ → List ℕ
  | b0 :: b1 :: b2 :: b3 :: rest =>
      (((b0 * 256 + b1) * 256 + b2) * 256 + b3) :: bytesToWords rest
  | _ => []

/-- Split a byte list into 64-byte blocks (fuelled by the length, so the
definition is total; the fuel always suffices). -/
def chunksAux : ℕ → List ℕ → List (List ℕ)
  | 0, _ => []
  | _, [] => []
  | n + 1, l => l.take 64 :: chunksAux n (l.drop 64)

def chunks64 (l : List ℕ) : List (List ℕ) := chunksAux l.length l

/-- Extend the 16 message words of one block by `n` further schedule
words. -/
def extendWords (ws : List ℕ) : ℕ → List ℕ
  | 0 => ws
  | n + 1 =>
      let v := extendWords ws n
      let len := v.length
      v ++ [w32 (ssig1 (v.getD (len - 2) 0) + v.getD (len - 7) 0 +
                 ssig0 (v.getD (len - 15) 0) + v.getD (len - 16) 0)]

/-- The 64-word message schedule of one block. -/
def msgSchedule (ws : List ℕ) : List ℕ := extendWords ws 48

/-- One round of the SHA-256 compression function on the 8-word working
state. -/
def compressStep (W : List ℕ) (st : List ℕ) (t : ℕ) : List ℕ :=
  match st with
  | [a, b, c, d, e, f, g, h] =>
      let T1 := w32 (h + bsig1 e + ch e f g + K.getD t 0 + W.getD t 0)
      let T2 := w32 (bsig0 a + maj a b c)
      [w32 (T1 + T2), a, b, c, w32 (d + T1), e, f, g]
  | _ => st

/-- Compress one 64-byte block into the running 8-word hash state. -/
def compressBlock (st : List ℕ) (block : List ℕ) : List ℕ :=
  let W := msgSchedule (bytesToWords block)
  let f := (List.range 64).foldl (compressStep W) st
  List.zipWith (fun x y => w32 (x + y)) st f

/-- SHA-256 of a byte list, as the 8 final 32-bit hash words. -/
def sha256Words (msg : List ℕ) : List ℕ :=
  (chunks64 (padMessage msg)).foldl compressBlock H0

/-- Lowercase hex character of a digit value (values ≥ 16 cannot arise). -/
def hexDigit (d : ℕ) : Char :=
  match d with
  | 0 => '0' | 1 => '1' | 2 => '2' | 3 => '3' | 4 => '4'
  | 5 => '5' | 6 => '6' | 7 => '7' | 8 => '8' | 9 => '9'
  | 10 => 'a' | 11 => 'b' | 12 => 'c' | 13 => 'd' | 14 => 'e' | _ => 'f'

/-- A 32-bit word as its 8 hex characters, most significant first. -/
def toHex8 (wd : ℕ) : List Char :=
  (List.range 8).map (fun i => hexDigit ((wd >>> (4 * (7 - i))) % 16))

/-- The hex digest string (as characters) of `digest("hex")`. -/
def sha256hex (msg : List ℕ) : List Char :=
  ((sha256Words msg).map toHex8).flatten

/-- Numeric value of a hex character (`parseInt` digit value; characters
outside `[0-9a-f]` cannot arise from a digest). -/
def hexVal (c : Char) : ℕ :=
  match c with
  | '0' => 0 | '1' => 1 | '2' => 2 | '3' => 3 | '4' => 4
  | '5' => 5 | '6' => 6 | '7' => 7 | '8' => 8 | '9' => 9
  | 'a' => 10 | 'b' => 11 | 'c' => 12 | 'd' => 13 | 'e' => 14 | 'f' => 15
  | _ => 0

/-- Base-16 positional value of a list of hex characters: what
`parseInt(str, 16)` returns on a string of valid hex digits. -/
def hexParse : List Char → ℕ
  | [] => 0
  | c :: rest => hexVal c * 16 ^ rest.length + hexParse rest

/-- Embeds `generateSeed(address, data?)`: hash `` `${address}-${data}` ``
when `data` is truthy (present and non-empty), else `address` alone;
render the SHA-256 digest in hex, take the first 8 characters, parse
base 16. -/
def generateSeed (address : String) (data : Option String) : ℕ :=
  let input :=
    match data with
    | some d => if d = "" then address else address ++ "-" ++ d
    | none => address
  hexParse ((sha256hex (utf8Bytes input)).take 8)

/-! ## `SeededRandom`

The internal `seed` field is a JavaScript number that the bitwise
operators coerce through `ToInt32`; we keep the 32-bit *pattern* as a
`ℕ` below `2 ^ 32` (the signed value is `p` when `p < 2 ^ 31`, else
`p - 2 ^ 32`), which the xorshift steps preserve. -/

/-- JavaScript `>> k` (sign-propagating shift) on a 32-bit pattern. -/
def asr32 (p k : ℕ) : ℕ :=
  if p < 2 ^ 31 then p >>> k else (p >>> k) + (2 ^ 32 - 2 ^ (32 - k))

/-- The three xorshift assignments of `next()` on the state pattern
(`seed ^= seed << 13; seed ^= seed >> 17; seed ^= seed << 5`), with the
initial `ToInt32` coercion of the stored number made explicit. -/
def xorshift32 (p : ℕ) : ℕ :=
  let p0 := p % 2 ^ 32
  let a := p0 ^^^ ((p0 <<< 13) % 2 ^ 32)
  let b := a ^^^ asr32 a 17
  b ^^^ ((b <<< 5) % 2 ^ 32)

/-- Absolute value of the signed reading of a 32-bit pattern. -/
def absInt32 (p : ℕ) : ℕ := if p < 2 ^ 31 then p else 2 ^ 32 - p

namespace SeededRandom

/-- Embeds `SeededRandom.next()`: mutate the state by the xorshift
transform and return `Math.abs(seed % 1000) / 1000` (JavaScript `%`
truncates toward zero, so `abs(v % 1000) = abs(v) % 1000`).  Returns
(new state pattern, produced value). -/
def next (p : ℕ) : ℕ × ℚ :=
  let p1 := xorshift32 p
  (p1, (absInt32 p1 % 1000 : ℕ) / 1000)

/-- Embeds `SeededRandom.nextRange(min, max)`:
`Math.floor(this.next() * (max - min + 1)) + min`. -/
def nextRange (p : ℕ) (min max : ℤ) : ℕ × ℤ :=
  let r := next p
  (r.1, ⌊r.2 * ((max : ℚ) - (min : ℚ) + 1)⌋ + min)

end SeededRandom

/-! ## The module-level `random(min, max)` helper

`random` draws from the *unseeded* `Math.random()`.  The ambient stream
of `Math.random()` results is a parameter `s : ℕ → ℚ` (each value in
`[0, 1)`), consumed one draw per call; `random v min max` is the result
of one call whose `Math.random()` returned `v`. -/

/-- Embeds `random(min, max)`:
`Math.floor(Math.random() * (max - min + 1)) + min`, with `v` the
`Math.random()` draw. -/
def random (v : ℚ) (min max : ℤ) : ℤ :=
  ⌊v * ((max : ℚ) - (min : ℚ) + 1)⌋ + min

/-- The same function in a form the kernel can evaluate on concrete
rationals (`⌊q⌋` of a non-negative-denominator fraction is `Int.fdiv` of
numerator by denominator); `randomFdiv_eq_random` proves it equal to
`random`.  The renderer below consumes draws through this form so that
concrete runs reduce by `decide`. -/
def randomFdiv (v : ℚ) (min max : ℤ) : ℤ :=
  (v.num * (max - min + 1)).fdiv v.den + min

/-! ## `drawPattern` settings (the `settings` object) -/

def gridSize : ℕ := 10

def boxSize : ℕ := 40

def colors : List String :=
  ["#FFE8FF", "#FFIDFF", "#44106C", "#1A0335", "#672EEB"]

def offsets : List ℚ := [125/100, 135/100, 1425/1000, 15/10, 16/10, 2]

/-- One call `random(0, settings.colors.length - 1)` used for the color
indices (the result is a list index, hence `toNat`; it is non-negative
whenever `0 ≤ v`). -/
def pickColorIdx (v : ℚ) : ℕ :=
  (randomFdiv v 0 ((colors.length : ℤ) - 1)).toNat

/-- One call `random(0, settings.offsets.length - 1)` used for the
offset index. -/
def pickOffsetIdx (v : ℚ) : ℕ :=
  (randomFdiv v 0 ((offsets.length : ℤ) - 1)).toNat

/-! ## The canvas, modelled as its operation trace -/

/-- One drawing operation performed on the 2D context, in order. -/
inductive Op where
  | setFillStyle (color : String)
  | setFillStyleGradient (stops : List (ℚ × String))
  | fillRect (x y w h : ℚ)
  | beginPath
  | moveTo (x y : ℚ)
  | lineTo (x y : ℚ)
  | closePath
  | fill
  | save
  | translate (x y : ℚ)
  | setShadowColor (color : String)
  | setShadowBlur (blur : ℚ)
  | drawImage (img : String) (x y w h : ℚ)
  | restore
deriving DecidableEq, Repr

/-! ## `drawPattern`

The per-cell `while` loop re-draws the element color until it differs
from the background color; its iteration count depends on the random
stream, so the embedding carries a fuel bound and returns `none` when
the loop would still be running after `fuel` picks (the divergence
surrogate).  All three random draws of a cell happen before any of its
drawing operations in the source, so a cell is computed first
(`drawCell`) and rendered after (`cellOps`). -/

/-- The `while (elementColorIndex === bgColorIndex)` loop, including the
initial pick.  Returns (element color index, next stream position). -/
def pickLoop : ℕ → ℕ → (ℕ → ℚ) → ℕ → Option (ℕ × ℕ)
  | 0, _, _, _ => none
  | fuel + 1, bg, s, t =>
      let e := pickColorIdx (s t)
      if e = bg then pickLoop fuel bg s (t + 1) else some (e, t + 1)

/-- The random choices of one grid cell. -/
structure Cell where
  i : ℕ
  j : ℕ
  bg : ℕ
  fg : ℕ
  offIdx : ℕ
deriving DecidableEq, Repr

/-- Compute one cell's random choices from stream position `t`. -/
def drawCell (fuel : ℕ) (s : ℕ → ℚ) (t : ℕ) (i j : ℕ) :
    Option (Cell × ℕ) :=
  let bg := pickColorIdx (s t)
  match pickLoop fuel bg s (t + 1) with
  | none => none
  | some (fg, t') =>
      some (⟨i, j, bg, fg, pickOffsetIdx (s t')⟩, t' + 1)

/-- Thread the stream position through a list of grid cells. -/
def drawCellsAux (fuel : ℕ) (s : ℕ → ℚ) :
    List (ℕ × ℕ) → ℕ → Option (List Cell)
  | [], _ => some []
  | (i, j) :: rest, t =>
      match drawCell fuel s t i j with
      | none => none
      | some (c, t') => (drawCellsAux fuel s rest t').map (c :: ·)

/-- The row-major cell order of the two nested `for` loops. -/
def gridIndices : List (ℕ × ℕ) :=
  (List.range gridSize).flatMap fun i =>
    (List.range gridSize).map fun j => (i, j)

/-- All 100 cells of one `drawPattern` run over stream `s`. -/
def drawPatternCells (fuel : ℕ) (s : ℕ → ℚ) : Option (List Cell) :=
  drawCellsAux fuel s gridIndices 0

/-- `const x = (i * settings.boxSize) % 400`. -/
def cellX (c : Cell) : ℕ := c.i * boxSize % 400

/-- `const y = (j * settings.boxSize) % 400`. -/
def cellY (c : Cell) : ℕ := c.j * boxSize % 400

/-- `const offset = settings.boxSize / settings.offsets[...]`. -/
def cellOffset (c : Cell) : ℚ := (boxSize : ℚ) / offsets.getD c.offIdx 0

/-- The canvas operations one cell performs: background rectangle, then
the cut-corner octagon path in the element color. -/
def cellOps (c : Cell) : List Op :=
  let x : ℚ := cellX c
  let y : ℚ := cellY c
  let b : ℚ := boxSize
  let o : ℚ := cellOffset c
  [Op.setFillStyle (colors.getD c.bg ""),
   Op.fillRect x y b b,
   Op.setFillStyle (colors.getD c.fg ""),
   Op.beginPath,
   Op.moveTo (x + o) y,
   Op.lineTo (x + b - o) y,
   Op.lineTo (x + b) (y + o),
   Op.lineTo (x + b) (y + b - o),
   Op.lineTo (x + b - o) (y + b),
   Op.lineTo (x + o) (y + b),
   Op.lineTo x (y + b - o),
   Op.lineTo x (y + o),
   Op.closePath,
   Op.fill]

/-- The full operation trace of `drawPattern`. -/
def drawPatternOps (cells : List Cell) : List Op :=
  (cells.map cellOps).flatten

/-! ## The handler -/

/-- What the handler sends: a JSON error body with a status, or the PNG
buffer (a function of the final canvas trace, represented by it). -/
inductive HResult where
  | json (status : ℕ) (error : String)
  | png (buffer : List Op)
deriving DecidableEq, Repr

/-- Observable outcome of one request: the response, whether a canvas
was ever created, and every operation performed on it. -/
structure HOut where
  response : HResult
  canvasCreated : Bool
  ops : List Op
deriving DecidableEq, Repr

/-- The gradient overlay: `createLinearGradient(0, 0, 0, 400)` with its
three stops, set as fill style, then a full-canvas `fillRect`. -/
def gradientOps : List Op :=
  [Op.setFillStyleGradient
     [(0, "rgba(54, 54, 54, 0.37)"), (7/10, "rgba(0, 0, 0, 0.67)"),
      (1, "rgb(0, 0, 0)")],
   Op.fillRect 0 0 400 400]

def scaledWidth : ℚ := 300

def scaledHeight : ℚ := 180

def baseX : ℚ := (400 - scaledWidth) / 2

def baseY : ℚ := 400 - scaledHeight

/-- The watermark compositing operations (save, translate to the
placement center, shadow setup, scaled draw, restore). -/
def watermarkOps (img : String) : List Op :=
  [Op.save,
   Op.translate (baseX + scaledWidth / 2) (baseY + scaledHeight / 2),
   Op.setShadowColor "rgb(0, 0, 0)",
   Op.setShadowBlur 60,
   Op.drawImage img (-(scaledWidth / 2)) (-(scaledHeight / 2))
     scaledWidth scaledHeight,
   Op.restore]

/-- Embeds the exported `handler`.  `address`/`data` are the query
parameters (`none` = absent), `s` is the ambient `Math.random()` stream,
`wm` the result of `loadImage` (`none` = fetch/decode failed, which the
`catch` turns into a 500), `fuel` bounds the per-cell rejection loop
(`none` overall = that loop never finished).  The seed is computed as in
the source — from `address` alone — and never used afterwards. -/
def handler (address : Option String) (data : Option String) (fuel : ℕ)
    (s : ℕ → ℚ) (wm : Option String) : Option HOut :=
  match address with
  | none => some ⟨.json 400 "Valid Ethereum address is required", false, []⟩
  | some a =>
      if a = "" then
        some ⟨.json 400 "Valid Ethereum address is required", false, []⟩
      else
        let _seed := generateSeed a none
        match drawPatternCells fuel s with
        | none => none
        | some cells =>
            let afterGradient := drawPatternOps cells ++ gradientOps
            match wm with
            | none => some ⟨.json 500 "Internal server error", true, afterGradient⟩
            | some img =>
                let final := afterGradient ++ watermarkOps img
                some ⟨.png final, true, final⟩

/-! ## Concrete `Math.random()` streams used as test inputs

Written with `mkRat` so that every draw is a kernel-reducible rational
in `[0, 1)`. -/

/-- Draws alternating `0, 1/2, 0, 1/2, ...`. -/
def sAlt0 (n : ℕ) : ℚ := if n % 2 = 0 then 0 else mkRat 1 2

/-- Draws alternating `1/2, 0, 1/2, 0, ...`. -/
def sAlt1 (n : ℕ) : ℚ := if n % 2 = 0 then mkRat 1 2 else 0

/-- Draws cycling through `0, 1/5, 2/5, 3/5, 4/5`, so every color index
occurs infinitely often. -/
def sCycle5 (n : ℕ) : ℚ := mkRat ((n % 5 : ℕ) : ℤ) 5

/-- The cells `drawPattern` computes from the stream `sAlt0` (two picks
of loop fuel per cell always suffice on this stream). -/
def cellsAlt0 : List Cell := (drawPatternCells 2 sAlt0).getD []

/-! ## Theorems -/

/-- The evaluable form of `random` agrees with the source formula
`Math.floor(v * (max - min + 1)) + min` everywhere. -/
theorem randomFdiv_eq_random (v : ℚ) (min max : ℤ) :
    randomFdiv v min max = random v min max := by
  unfold randomFdiv random
  congr 1
  have h1 : v * ((max : ℚ) - (min : ℚ) + 1) =
      ((v.num * (max - min + 1) : ℤ) : ℚ) / ((v.den : ℕ) : ℚ) := by
    conv_lhs => rw [← Rat.num_div_den v]
    push_cast
    ring
  rw [h1, Rat.floor_intCast_div_natCast,
    Int.fdiv_eq_ediv _ (Int.ofNat_nonneg v.den)]

set_option maxRecDepth 40000 in
/-- Sanity check of the SHA-256 embedding against the FIPS 180-2 test
vector for `"abc"`. -/
theorem sha256_test_vector_abc :
    sha256hex (utf8Bytes "abc") =
      "ba7816bf8f01cfea414140de5dae2223b00361a396177a9cb410ff61f20015ad".data := by
  decide

set_option maxRecDepth 40000 in
/-- Sanity check of the SHA-256 embedding against the test vector for
the empty message. -/
theorem sha256_test_vector_empty :
    sha256hex (utf8Bytes "") =
      "e3b0c44298fc1c149afbf4c8996fb92427ae41e4649b934ca495991b7852b855".data := by
  decide

/-- Every hex digit value is at most 15. -/
theorem hexVal_le (c : Char) : hexVal c ≤ 15 := by
  unfold hexVal
  split <;> omega

/-- The base-16 value of a digit list is below `16 ^ length`. -/
theorem hexParse_lt (l : List Char) : hexParse l < 16 ^ l.length := by
  induction l with
  | nil => simp [hexParse]
  | cons c rest ih =>
      simp only [hexParse, List.length_cons, pow_succ]
      have hc := hexVal_le c
      nlinarith [ih]

/-- The parse of at most 8 hex characters is bounded by `0xFFFFFFFF`. -/
theorem hexParse_take8_le (l : List Char) :
    hexParse (l.take 8) ≤ 0xFFFFFFFF := by
  have h := hexParse_lt (l.take 8)
  have hlen : (l.take 8).length ≤ 8 := by
    rw [List.length_take]
    exact min_le_left _ _
  have h2 : 16 ^ (l.take 8).length ≤ 16 ^ 8 :=
    Nat.pow_le_pow_right (by norm_num) hlen
  have h3 : (16 : ℕ) ^ 8 = 4294967296 := by norm_num
  omega

/-- The seed is bounded by `0xFFFFFFFF` for every input. -/
theorem generateSeed_le (a : String) (d : Option String) :
    generateSeed a d ≤ 0xFFFFFFFF :=
  hexParse_take8_le _

/-- The value produced by `next()` is non-negative. -/
theorem next_snd_nonneg (p : ℕ) : 0 ≤ (SeededRandom.next p).2 := by
  simp only [SeededRandom.next]
  positivity

/-- The value produced by `next()` is below 1. -/
theorem next_snd_lt_one (p : ℕ) : (SeededRandom.next p).2 < 1 := by
  simp only [SeededRandom.next]
  rw [div_lt_one (by norm_num)]
  exact_mod_cast Nat.mod_lt _ (by norm_num)

/-- Claim C7: a call to `next()` applies the xorshift transform to the
32-bit state (with JavaScript signed bitwise semantics, here on the
bit pattern) and returns `abs(new state mod 1000) / 1000`, a value in
the half-open interval `[0, 1)`. -/
theorem next_applies_xorshift_and_is_in_unit (p : ℕ) :
    (SeededRandom.next p).1 = xorshift32 p ∧
    (SeededRandom.next p).2 =
      ((absInt32 (xorshift32 p) % 1000 : ℕ) : ℚ) / 1000 ∧
    0 ≤ (SeededRandom.next p).2 ∧ (SeededRandom.next p).2 < 1 :=
  ⟨rfl, rfl, next_snd_nonneg p, next_snd_lt_one p⟩

/-- Claim C3: for `min ≤ max`, `nextRange(min, max)` is
`floor(next() * (max - min + 1)) + min`, an integer in `[min, max]`. -/
theorem nextRange_in_range (p : ℕ) (min max : ℤ) (h : min ≤ max) :
    (SeededRandom.nextRange p min max).2 =
      ⌊(SeededRandom.next p).2 * ((max : ℚ) - (min : ℚ) + 1)⌋ + min ∧
    min ≤ (SeededRandom.nextRange p min max).2 ∧
    (SeededRandom.nextRange p min max).2 ≤ max := by
  refine ⟨rfl, ?_, ?_⟩ <;>
    simp only [SeededRandom.nextRange]
  · have h0 : 0 ≤ (SeededRandom.next p).2 := next_snd_nonneg p
    have hspan : (0 : ℚ) ≤ (max : ℚ) - (min : ℚ) + 1 := by
      have : ((min : ℚ)) ≤ (max : ℚ) := by exact_mod_cast h
      linarith
    have hf : 0 ≤ ⌊(SeededRandom.next p).2 * ((max : ℚ) - (min : ℚ) + 1)⌋ :=
      Int.floor_nonneg.mpr (mul_nonneg h0 hspan)
    omega
  · have h1 : (SeededRandom.next p).2 < 1 := next_snd_lt_one p
    have h0 : 0 ≤ (SeededRandom.next p).2 := next_snd_nonneg p
    have hspan : (0 : ℚ) < (max : ℚ) - (min : ℚ) + 1 := by
      have : ((min : ℚ)) ≤ (max : ℚ) := by exact_mod_cast h
      linarith
    have hmul : (SeededRandom.next p).2 * ((max : ℚ) - (min : ℚ) + 1) <
        ((max - min + 1 : ℤ) : ℚ) := by
      push_cast
      nlinarith
    have hf : ⌊(SeededRandom.next p).2 * ((max : ℚ) - (min : ℚ) + 1)⌋ <
        max - min + 1 := Int.floor_lt.mpr hmul
    omega

/-- Witness for `nextRange_in_range` at state 12345 and range `[0, 4]`. -/
theorem nextRange_in_range_witness :
    (0 : ℤ) ≤ 4 ∧
    ((SeededRandom.nextRange 12345 0 4).2 =
        ⌊(SeededRandom.next 12345).2 * ((4 : ℚ) - (0 : ℚ) + 1)⌋ + 0 ∧
      0 ≤ (SeededRandom.nextRange 12345 0 4).2 ∧
      (SeededRandom.nextRange 12345 0 4).2 ≤ 4) :=
  ⟨by decide, nextRange_in_range 12345 0 4 (by decide)⟩

/-- Claim C10: an empty auxiliary string is falsy in
`data ? ... : ...`, so it is treated exactly like an absent one. -/
theorem generateSeed_empty_data (a : String) :
    generateSeed a (some "") = generateSeed a none := rfl

set_option maxRecDepth 40000 in
/-- Counterexample to claim C6 as stated: for aux *present but empty*,
the code hashes the identifier alone, not `"{identifier}-{aux}"`. -/
theorem generateSeed_present_empty_aux_cex :
    generateSeed "a" (some "") ≠
      hexParse ((sha256hex (utf8Bytes ("a" ++ "-" ++ ""))).take 8) := by
  decide

/-- Claim C6 (amended: aux present *and non-empty*): the seed is the
base-16 parse of the first 8 hex characters of the SHA-256 digest of
the UTF-8 bytes of `"{identifier}-{aux}"` when aux is present and
non-empty, else of the identifier alone; it always lies in
`[0, 0xFFFFFFFF]`. -/
theorem generateSeed_spec (a d : String) (hd : d ≠ "") :
    generateSeed a (some d) =
      hexParse ((sha256hex (utf8Bytes (a ++ "-" ++ d))).take 8) ∧
    generateSeed a none =
      hexParse ((sha256hex (utf8Bytes a)).take 8) ∧
    generateSeed a (some d) ≤ 0xFFFFFFFF ∧
    generateSeed a none ≤ 0xFFFFFFFF := by
  refine ⟨?_, rfl, generateSeed_le a (some d), generateSeed_le a none⟩
  simp only [generateSeed, if_neg hd]

/-- Witness for `generateSeed_spec` at identifier "0x1", aux "42". -/
theorem generateSeed_spec_witness :
    ("42" : String) ≠ "" ∧
    (generateSeed "0x1" (some "42") =
        hexParse ((sha256hex (utf8Bytes ("0x1" ++ "-" ++ "42"))).take 8) ∧
      generateSeed "0x1" none =
        hexParse ((sha256hex (utf8Bytes "0x1")).take 8) ∧
      generateSeed "0x1" (some "42") ≤ 0xFFFFFFFF ∧
      generateSeed "0x1" none ≤ 0xFFFFFFFF) :=
  ⟨by decide, generateSeed_spec "0x1" "42" (by decide)⟩

/-- Whatever the rejection loop returns differs from the background
index. -/
theorem pickLoop_ne_bg : ∀ (fuel bg : ℕ) (s : ℕ → ℚ) (t e t' : ℕ),
    pickLoop fuel bg s t = some (e, t') → e ≠ bg := by
  intro fuel
  induction fuel with
  | zero => intro bg s t e t' h; simp [pickLoop] at h
  | succ n ih =>
      intro bg s t e t' h
      rw [pickLoop] at h
      by_cases hc : pickColorIdx (s t) = bg
      · rw [if_pos hc] at h
        exact ih bg s (t + 1) e t' h
      · rw [if_neg hc] at h
        obtain ⟨he, _⟩ := Prod.mk.injEq .. ▸ Option.some.inj h
        exact he ▸ hc

/-- A computed cell's foreground index differs from its background
index. -/
theorem drawCell_fg_ne (fuel : ℕ) (s : ℕ → ℚ) (t i j : ℕ) (c : Cell)
    (t' : ℕ) (h : drawCell fuel s t i j = some (c, t')) : c.fg ≠ c.bg := by
  simp only [drawCell] at h
  rcases hp : pickLoop fuel (pickColorIdx (s t)) s (t + 1) with _ | ⟨fg, u⟩
  · rw [hp] at h
    simp at h
  · rw [hp] at h
    simp only [Option.some.injEq, Prod.mk.injEq] at h
    obtain ⟨rfl, _⟩ := h
    exact pickLoop_ne_bg fuel _ s (t + 1) fg u hp

/-- All cells produced by threading the stream through an index list
satisfy the distinct-color invariant. -/
theorem drawCellsAux_fg_ne (fuel : ℕ) (s : ℕ → ℚ) :
    ∀ (l : List (ℕ × ℕ)) (t : ℕ) (cells : List Cell),
    drawCellsAux fuel s l t = some cells → ∀ c ∈ cells, c.fg ≠ c.bg := by
  intro l
  induction l with
  | nil =>
      intro t cells h c hc
      simp only [drawCellsAux, Option.some.injEq] at h
      subst h
      simp at hc
  | cons p rest ih =>
      intro t cells h c hc
      obtain ⟨i, j⟩ := p
      unfold drawCellsAux at h
      rcases hd : drawCell fuel s t i j with _ | ⟨c0, t'⟩
      · rw [hd] at h
        simp at h
      · rw [hd] at h
        simp only [Option.map_eq_some'] at h
        obtain ⟨rest', hr, hcells⟩ := h
        subst hcells
        rcases List.mem_cons.mp hc with rfl | hmem
        · exact drawCell_fg_ne fuel s t i j c t' hd
        · exact ih t' rest' hr c hmem

/-- Claim C5: in every cell rendered by `drawPattern` (whenever its
color-selection loop terminated), the element color index differs from
the background color index. -/
theorem drawPattern_fg_ne_bg (fuel : ℕ) (s : ℕ → ℚ) (cells : List Cell)
    (h : drawPatternCells fuel s = some cells) : ∀ c ∈ cells, c.fg ≠ c.bg :=
  drawCellsAux_fg_ne fuel s gridIndices 0 cells h

/-- Witness for `drawPattern_fg_ne_bg`: the first cell computed from
the stream `sAlt0`. -/
theorem drawPattern_fg_ne_bg_witness :
    (⟨0, 0, 0, 2, 0⟩ : Cell).fg ≠ (⟨0, 0, 0, 2, 0⟩ : Cell).bg :=
  drawPattern_fg_ne_bg 2 sAlt0 cellsAlt0 (by decide) ⟨0, 0, 0, 2, 0⟩
    (by decide)

/-- If some draw at or after the current position picks an index other
than the background, the rejection loop terminates within the
corresponding fuel. -/
theorem pickLoop_of_pick_ne (s : ℕ → ℚ) (bg : ℕ) :
    ∀ (d t : ℕ), pickColorIdx (s (t + d)) ≠ bg →
    ∃ r, pickLoop (d + 1) bg s t = some r := by
  intro d
  induction d with
  | zero =>
      intro t h
      rw [Nat.add_zero] at h
      exact ⟨_, by rw [pickLoop, if_neg h]⟩
  | succ n ih =>
      intro t h
      by_cases hc : pickColorIdx (s t) = bg
      · have h' : pickColorIdx (s ((t + 1) + n)) ≠ bg := by
          have : (t + 1) + n = t + (n + 1) := by omega
          rw [this]
          exact h
        obtain ⟨r, hr⟩ := ih (t + 1) h'
        exact ⟨r, by rw [pickLoop, if_pos hc]; exact hr⟩
      · exact ⟨_, by rw [pickLoop, if_neg hc]⟩

/-- Claim C4: the foreground rejection loop terminates from any start
position, for any background index the palette can produce, because the
palette has at least 2 colors (the fixed palette has 5) and the stream
keeps producing every palette index. -/
theorem pickLoop_terminates (s : ℕ → ℚ) (bg t : ℕ)
    (hpal : 2 ≤ colors.length) (hbg : bg < colors.length)
    (hfair : ∀ k, k < colors.length →
      ∀ m, ∃ n, m ≤ n ∧ pickColorIdx (s n) = k) :
    ∃ fuel r, pickLoop fuel bg s t = some r := by
  have hk : ∃ k, k < colors.length ∧ k ≠ bg := by
    by_cases h0 : bg = 0
    · exact ⟨1, by omega, by omega⟩
    · exact ⟨0, by omega, fun h => h0 h.symm⟩
  obtain ⟨k, hklt, hkne⟩ := hk
  obtain ⟨n, hn, hpick⟩ := hfair k hklt t
  have hne : pickColorIdx (s (t + (n - t))) ≠ bg := by
    have : t + (n - t) = n := by omega
    rw [this, hpick]
    exact hkne
  obtain ⟨r, hr⟩ := pickLoop_of_pick_ne s bg (n - t) t hne
  exact ⟨n - t + 1, r, hr⟩

/-- On the cycling stream, each draw picks exactly `n % 5`. -/
theorem pickColorIdx_sCycle5 (n : ℕ) : pickColorIdx (sCycle5 n) = n % 5 := by
  have h : n % 5 = 0 ∨ n % 5 = 1 ∨ n % 5 = 2 ∨ n % 5 = 3 ∨ n % 5 = 4 := by
    omega
  rcases h with h | h | h | h | h <;> · simp only [sCycle5, h]; decide

/-- The cycling stream produces every color index at or past every
position. -/
theorem sCycle5_fair :
    ∀ k, k < colors.length → ∀ m, ∃ n, m ≤ n ∧ pickColorIdx (sCycle5 n) = k := by
  intro k hk m
  have hk5 : k < 5 := by
    have hlen : colors.length = 5 := by decide
    omega
  refine ⟨5 * (m / 5) + 5 + k, by omega, ?_⟩
  rw [pickColorIdx_sCycle5]
  omega

/-- Witness for `pickLoop_terminates` on the cycling stream with
background index 0 at stream position 0. -/
theorem pickLoop_terminates_witness :
    ∃ fuel r, pickLoop fuel 0 sCycle5 0 = some r :=
  pickLoop_terminates sCycle5 0 0 (by decide) (by decide) sCycle5_fair

/-- Claim C1 is false of the code (code bug): with the same identifier
`"0x1"` (hence the same derived seed) but two different ambient
`Math.random()` streams, the handler's outputs differ — the renderer
draws from the unseeded stream, so the pattern is not determined by the
seed. -/
theorem same_identifier_different_output :
    handler (some "0x1") none 2 sAlt0 (some "logo") ≠
      handler (some "0x1") none 2 sAlt1 (some "logo") := by
  intro h
  exact absurd (congrArg (Option.map fun o => o.ops.head?) h) (by decide)

/-- Claim C2: for any two requests with non-empty addresses and any
data values, the same random stream and the same watermark give
identical output — the seed is computed from the address but never
consumed, and `data` is never read at all. -/
theorem handler_ignores_address_and_data (a1 a2 : String)
    (h1 : a1 ≠ "") (h2 : a2 ≠ "") (d1 d2 : Option String) (fuel : ℕ)
    (s : ℕ → ℚ) (wm : Option String) :
    handler (some a1) d1 fuel s wm = handler (some a2) d2 fuel s wm := by
  simp only [handler, if_neg h1, if_neg h2]

/-- Witness for `handler_ignores_address_and_data` at two distinct
addresses and distinct data values. -/
theorem handler_ignores_address_and_data_witness :
    ("0xAAA" : String) ≠ "" ∧
    handler (some "0xAAA") none 2 sAlt0 (some "logo") =
      handler (some "0xBBB") (some "junk") 2 sAlt0 (some "logo") :=
  ⟨by decide, handler_ignores_address_and_data "0xAAA" "0xBBB"
    (by decide) (by decide) none (some "junk") 2 sAlt0 (some "logo")⟩

/-- Claim C8: an absent or empty address is rejected with the 400 JSON
error before any canvas exists — no canvas is created, no drawing
operation runs, and no PNG is produced. -/
theorem missing_address_rejected (address data : Option String)
    (fuel : ℕ) (s : ℕ → ℚ) (wm : Option String)
    (h : address = none ∨ address = some "") :
    handler address data fuel s wm =
      some ⟨.json 400 "Valid Ethereum address is required", false, []⟩ := by
  rcases h with h | h <;> subst h <;> rfl

/-- Witness for `missing_address_rejected` at an absent address. -/
theorem missing_address_rejected_witness :
    handler none none 1 sAlt0 none =
      some ⟨.json 400 "Valid Ethereum address is required", false, []⟩ :=
  missing_address_rejected none none 1 sAlt0 none (Or.inl rfl)

/-- Claim C9: when the watermark fetch/decode fails, the handler
returns the 500 JSON error — the response is not a `png`, so no image
bytes are sent. -/
theorem watermark_failure_is_500 (a : String) (ha : a ≠ "")
    (data : Option String) (fuel : ℕ) (s : ℕ → ℚ) (cells : List Cell)
    (hcells : drawPatternCells fuel s = some cells) :
    handler (some a) data fuel s none =
      some ⟨.json 500 "Internal server error", true,
        drawPatternOps cells ++ gradientOps⟩ := by
  simp only [handler, if_neg ha, hcells]

/-- Witness for `watermark_failure_is_500` at address "0x1" over the
stream `sAlt0`. -/
theorem watermark_failure_is_500_witness :
    handler (some "0x1") none 2 sAlt0 none =
      some ⟨.json 500 "Internal server error", true,
        drawPatternOps cellsAlt0 ++ gradientOps⟩ :=
  watermark_failure_is_500 "0x1" (by decide) none 2 sAlt0 cellsAlt0
    (by decide)

end AavegotchiGen
